import Mathlib

/-!
Verification development for the steam-hour-boost repository.

The definitions below are a shallow embedding of the TypeScript sources:
  - src/crypto.ts        : the password-based authenticated-encryption vault envelope
  - src/steamFunctions.ts: token vault, reconnect scheduler, login option builder,
                           login error handler, cache sweep, game-selection logic
  - src/storage.ts       : the encrypted account-collection store

Byte buffers are modelled as List Nat. External library primitives (the
node crypto cipher, base64 codec, utf8 codec, steam-totp, the metadata
lookup over the network, JSON) are parameters of the embedding: the code of
this repository composes them, and the theorems state exactly the contracts
of those primitives that the composition relies on.
-/

/-! ## Embedding of src/crypto.ts -/

/-- External primitives used by src/crypto.ts. The repository code calls
node crypto (pbkdf2Sync with sha512, createCipheriv and createDecipheriv for
aes-256-gcm) and the Buffer base64 and utf8 codecs; they are parameters here.
aeadEnc returns the pair of ciphertext and authentication tag; aeadDec returns
none when tag verification fails (the decipher throws). -/
structure CipherOps where
  pbkdf2 : String → List Nat → Nat → Nat → List Nat
  aeadEnc : List Nat → List Nat → List Nat → List Nat × List Nat
  aeadDec : List Nat → List Nat → List Nat → List Nat → Option (List Nat)
  utf8enc : String → List Nat
  utf8dec : List Nat → String
  b64enc : List Nat → String
  b64dec : String → List Nat

/-- Constant SALT_LENGTH of src/crypto.ts. -/
def SALT_LENGTH : Nat := 64

/-- Constant IV_LENGTH of src/crypto.ts. -/
def IV_LENGTH : Nat := 16

/-- Constant TAG_LENGTH of src/crypto.ts. -/
def TAG_LENGTH : Nat := 16

/-- Constant KEY_LENGTH of src/crypto.ts. -/
def KEY_LENGTH : Nat := 32

/-- Constant ITERATIONS of src/crypto.ts. -/
def ITERATIONS : Nat := 100000

/-- Embedding of encrypt from src/crypto.ts. The fresh random salt and iv
produced by crypto.randomBytes are passed as arguments; the result is the
base64 encoding of salt, iv, tag and ciphertext concatenated in that order. -/
def encrypt (C : CipherOps) (salt iv : List Nat) (text password : String) : String :=
  let key := C.pbkdf2 password salt ITERATIONS KEY_LENGTH
  let e := C.aeadEnc key iv (C.utf8enc text)
  C.b64enc (salt ++ iv ++ e.2 ++ e.1)

/-- Embedding of decrypt from src/crypto.ts: base64-decode, slice the buffer
into salt, iv, tag and ciphertext, re-derive the key from the embedded salt
and the passphrase, and run the authenticated decipher. -/
def decrypt (C : CipherOps) (encryptedData password : String) : Option String :=
  let buffer := C.b64dec encryptedData
  let salt := buffer.take SALT_LENGTH
  let iv := (buffer.drop SALT_LENGTH).take IV_LENGTH
  let tag := (buffer.drop (SALT_LENGTH + IV_LENGTH)).take TAG_LENGTH
  let encrypted := buffer.drop (SALT_LENGTH + IV_LENGTH + TAG_LENGTH)
  let key := C.pbkdf2 password salt ITERATIONS KEY_LENGTH
  (C.aeadDec key iv tag encrypted).map C.utf8dec

lemma take_append_of_length {α : Type} (l1 l2 : List α) (n : Nat)
    (h : l1.length = n) : (l1 ++ l2).take n = l1 := by
  subst h
  simp

lemma drop_append_of_length {α : Type} (l1 l2 : List α) (n : Nat)
    (h : l1.length = n) : (l1 ++ l2).drop n = l2 := by
  subst h
  simp

/-- Claim C1: for every plaintext t and passphrase p, decrypt of encrypt
returns t exactly; the key is derived by the password-based KDF with 100000
iterations and 32-byte output from a 64-byte salt; the stored artifact is the
base64 encoding of salt, iv, tag, ciphertext (in that order, with a 16-byte
iv and a 16-byte tag); decrypt re-derives the key from the embedded salt and
passes the embedded tag to the authenticated decipher. The hypotheses are the
contracts of the external primitives at the values used: the cipher
round-trips under the same key and iv, the base64 and utf8 codecs round-trip. -/
theorem crypto_encrypt_decrypt_roundtrip
    (C : CipherOps) (salt iv ct tag : List Nat) (t p : String)
    (hs : salt.length = 64) (hiv : iv.length = 16) (htag : tag.length = 16)
    (henc : C.aeadEnc (C.pbkdf2 p salt 100000 32) iv (C.utf8enc t) = (ct, tag))
    (hb64 : C.b64dec (C.b64enc (salt ++ iv ++ tag ++ ct)) = salt ++ iv ++ tag ++ ct)
    (hdec : C.aeadDec (C.pbkdf2 p salt 100000 32) iv tag ct = some (C.utf8enc t))
    (hutf : C.utf8dec (C.utf8enc t) = t) :
    encrypt C salt iv t p = C.b64enc (salt ++ iv ++ tag ++ ct) ∧
    decrypt C (encrypt C salt iv t p) p = some t := by
  have he : encrypt C salt iv t p = C.b64enc (salt ++ iv ++ tag ++ ct) := by
    simp only [encrypt, ITERATIONS, KEY_LENGTH, henc]
  refine ⟨he, ?_⟩
  rw [he]
  simp only [decrypt, SALT_LENGTH, IV_LENGTH, TAG_LENGTH, ITERATIONS, KEY_LENGTH, hb64]
  have h64 : (salt ++ (iv ++ (tag ++ ct))).take 64 = salt :=
    take_append_of_length _ _ _ hs
  have hd64 : (salt ++ (iv ++ (tag ++ ct))).drop 64 = iv ++ (tag ++ ct) :=
    drop_append_of_length _ _ _ hs
  have hassoc80 : salt ++ (iv ++ (tag ++ ct)) = (salt ++ iv) ++ (tag ++ ct) := by
    simp
  have hd80 : (salt ++ (iv ++ (tag ++ ct))).drop 80 = tag ++ ct := by
    rw [hassoc80]
    exact drop_append_of_length _ _ _ (by simp [hs, hiv])
  have hassoc96 : salt ++ (iv ++ (tag ++ ct)) = ((salt ++ iv) ++ tag) ++ ct := by
    simp
  have hd96 : (salt ++ (iv ++ (tag ++ ct))).drop 96 = ct := by
    rw [hassoc96]
    exact drop_append_of_length _ _ _ (by simp [hs, hiv, htag])
  simp only [List.append_assoc] at h64 hd64 hd80 hd96 ⊢
  rw [h64, hd64, hd80, hd96, take_append_of_length _ _ _ hiv,
    take_append_of_length _ _ _ htag, hdec]
  simp [hutf]

/-- Concrete cipher primitives used to exercise the round-trip theorem:
identity-style ciphers whose contracts hold definitionally at the chosen
inputs. -/
def cipher0 : CipherOps where
  pbkdf2 := fun _ _ _ klen => List.replicate klen 7
  aeadEnc := fun _ _ pt => (pt, List.replicate 16 0)
  aeadDec := fun _ _ tg ct => if tg = List.replicate 16 0 then some ct else none
  utf8enc := fun s => s.data.map Char.toNat
  utf8dec := fun l => String.mk (l.map Char.ofNat)
  b64enc := fun l => String.mk (l.map Char.ofNat)
  b64dec := fun s => s.data.map Char.toNat

theorem crypto_encrypt_decrypt_roundtrip_witness :
    encrypt cipher0 (List.replicate 64 3) (List.replicate 16 5) "ok" "pw"
      = cipher0.b64enc (List.replicate 64 3 ++ List.replicate 16 5 ++
          List.replicate 16 0 ++ [111, 107]) ∧
    decrypt cipher0
      (encrypt cipher0 (List.replicate 64 3) (List.replicate 16 5) "ok" "pw") "pw"
      = some "ok" :=
  crypto_encrypt_decrypt_roundtrip cipher0 (List.replicate 64 3)
    (List.replicate 16 5) [111, 107] (List.replicate 16 0) "ok" "pw"
    (by simp) (by simp) (by simp) (by decide) (by decide) (by decide) (by decide)

/-! ## Data model of src/types.ts -/

/-- Verification mode of an account, field guardType of src/types.ts. -/
inductive GuardType where
  | none
  | mobile
  | email
  | secret
deriving DecidableEq

/-- Presence state of an account, field status of src/types.ts. -/
inductive PersonaStatus where
  | Online
  | Away
  | Invisible
  | Offline
deriving DecidableEq

/-- One activity selector, an element of the games list of src/types.ts:
either a numeric AppID or a custom game-name string. -/
inductive GameSel where
  | num (appId : Nat)
  | str (s : String)
deriving DecidableEq

/-- Account record of src/types.ts. Optional fields are Options; an absent
guardType behaves like neither of the four modes. -/
structure Account where
  username : String
  password : String
  sharedSecret : Option String
  guardType : Option GuardType
  games : List GameSel
  status : PersonaStatus
  ownerId : Nat
deriving DecidableEq

/-! ## Embedding of the token vault of src/steamFunctions.ts -/

/-- Result of JSON.parse on a decrypted token record: the refreshToken field
may be present or absent. -/
structure TokenData where
  refreshToken : Option String
deriving DecidableEq

/-- External primitives used by src/steamFunctions.ts and src/storage.ts:
encrypt and decrypt of src/crypto.ts sealed over their random inputs (dec
returns none when decryption throws), JSON stringify and parse (parse returns
none when it throws), the steam-totp code generator and the network metadata
lookup (none when the request fails or reports no success). -/
structure VaultCtx where
  enc : String → String → String
  dec : String → String → Option String
  stringifyTok : String → String
  parseTok : String → Option TokenData
  parseAccounts : String → Option (List Account)
  totp : String → String
  lookup : Nat → Option String

/-- A file store: path to contents. -/
def FS : Type := String → Option String

/-- Remove a path from a file store. -/
def fsDel (fs : FS) (p : String) : FS := fun q => if q = p then none else fs q

/-- Write a path in a file store. -/
def fsWrite (fs : FS) (p v : String) : FS := fun q => if q = p then some v else fs q

/-- Constant TOKENS_DIR of src/steamFunctions.ts. -/
def TOKENS_DIR : String := "data/tokens"

/-- Path of the encrypted token record of one account,
path.join of TOKENS_DIR and username plus the .token extension. -/
def tokenPath (username : String) : String := TOKENS_DIR ++ "/" ++ username ++ ".token"

/-- JavaScript truthiness coercion applied by the expression
data.refreshToken or null in loadToken: an absent or empty string field
yields null. -/
def orNull : Option String → Option String
  | some s => if s = "" then none else some s
  | Option.none => none

/-- Embedding of saveToken of src/steamFunctions.ts: a no-op when the
process-wide encryption key is unset (empty string, falsy), otherwise writes
the encryption of the stringified token record. -/
def saveTokenF (c : VaultCtx) (key : String) (fs : FS) (username token : String) : FS :=
  if key = "" then fs
  else fsWrite fs (tokenPath username) (c.enc (c.stringifyTok token) key)

/-- Embedding of loadToken of src/steamFunctions.ts: returns none when the
key is unset or the record is missing; when decryption or JSON parsing
throws, unlinks the record and returns none; otherwise returns the
refreshToken field coerced through JavaScript truthiness. The second
component is the file store after the call. -/
def loadTokenF (c : VaultCtx) (key : String) (fs : FS) (username : String) :
    Option String × FS :=
  if key = "" then (none, fs)
  else
    match fs (tokenPath username) with
    | Option.none => (none, fs)
    | some encrypted =>
      match c.dec encrypted key with
      | Option.none => (none, fsDel fs (tokenPath username))
      | some decrypted =>
        match c.parseTok decrypted with
        | Option.none => (none, fsDel fs (tokenPath username))
        | some data => (orNull data.refreshToken, fs)

/-- Embedding of deleteToken of src/steamFunctions.ts: unlinks the record if
it exists. Note the source has no encryption-key guard here. -/
def deleteTokenF (fs : FS) (username : String) : FS :=
  if (fs (tokenPath username)).isSome then fsDel fs (tokenPath username) else fs

/-- Embedding of hasToken of src/steamFunctions.ts: loadToken is not null. -/
def hasTokenF (c : VaultCtx) (key : String) (fs : FS) (username : String) : Bool × FS :=
  let r := loadTokenF c key fs username
  (r.1.isSome, r.2)

lemma fsDel_self (fs : FS) (p : String) : fsDel fs p p = none := by
  simp [fsDel]

/-- Claim C2: when the stored token record of an account fails to decrypt or
parse, loadToken unlinks the record and returns absent (no exception escapes:
the embedding is total); consequently hasToken returns false on the resulting
store, and a second loadToken call also returns absent and changes nothing,
because the record is gone. -/
theorem loadToken_corrupted_deletes (c : VaultCtx) (key : String)
    (fs : FS) (u e : String)
    (hk : ¬ key = "") (hf : fs (tokenPath u) = some e)
    (hfail : c.dec e key = none ∨
      ∃ d, c.dec e key = some d ∧ c.parseTok d = none) :
    loadTokenF c key fs u = (none, fsDel fs (tokenPath u)) ∧
    hasTokenF c key (fsDel fs (tokenPath u)) u = (false, fsDel fs (tokenPath u)) ∧
    loadTokenF c key (fsDel fs (tokenPath u)) u = (none, fsDel fs (tokenPath u)) := by
  have h2 : loadTokenF c key (fsDel fs (tokenPath u)) u
      = (none, fsDel fs (tokenPath u)) := by
    simp [loadTokenF, hk, fsDel_self]
  refine ⟨?_, ?_, h2⟩
  · rcases hfail with hdec | ⟨d, hdec, hparse⟩
    · simp [loadTokenF, hk, hf, hdec]
    · simp [loadTokenF, hk, hf, hdec, hparse]
  · simp [hasTokenF, h2]

/-- A decryption context in which every stored record fails to decrypt,
modelling a corrupted record or a wrong passphrase. -/
def ctxBadDec : VaultCtx where
  enc := fun t _ => t
  dec := fun _ _ => none
  stringifyTok := fun t => t
  parseTok := fun _ => none
  parseAccounts := fun _ => none
  totp := fun s => s
  lookup := fun _ => none

/-- A file store holding one corrupted token record for account u1. -/
def fsU1 : FS := fun p => if p = tokenPath "u1" then some "corrupted" else none

theorem loadToken_corrupted_deletes_witness :
    loadTokenF ctxBadDec "key1" fsU1 "u1" = (none, fsDel fsU1 (tokenPath "u1")) ∧
    hasTokenF ctxBadDec "key1" (fsDel fsU1 (tokenPath "u1")) "u1"
      = (false, fsDel fsU1 (tokenPath "u1")) ∧
    loadTokenF ctxBadDec "key1" (fsDel fsU1 (tokenPath "u1")) "u1"
      = (none, fsDel fsU1 (tokenPath "u1")) :=
  loadToken_corrupted_deletes ctxBadDec "key1" fsU1 "u1" "corrupted"
    (by decide) (by simp [fsU1]) (Or.inl rfl)

lemma deleteTokenF_at_path (fs : FS) (u : String) :
    deleteTokenF fs u (tokenPath u) = none := by
  unfold deleteTokenF
  by_cases h : (fs (tokenPath u)).isSome
  · simp [h, fsDel_self]
  · simp only [h, if_false, Bool.false_eq_true, ite_false]
    exact Option.not_isSome_iff_eq_none.1 h

/-- A file store holding one encrypted token record for account u7, used to
exhibit the behaviour of deleteToken without an encryption key. -/
def fsU7 : FS := fun p => if p = tokenPath "u7" then some "blob" else none

/-- Claim C7 counterexample: deleteToken in src/steamFunctions.ts has no
encryption-key guard (unlike saveToken and loadToken), so even with no key
set it removes an existing stored record: the stored state changes. -/
theorem deleteToken_no_key_counterexample :
    fsU7 (tokenPath "u7") = some "blob" ∧
    deleteTokenF fsU7 "u7" (tokenPath "u7") = none := by
  constructor
  · simp [fsU7]
  · exact deleteTokenF_at_path fsU7 "u7"

/-- Claim C7 amended: with the encryption key unset (empty, falsy), saveToken
writes nothing and loadToken returns absent without reading or changing the
store; deleteToken, which takes no key guard, removes the stored record
regardless of whether a key is set. -/
theorem vault_no_key_amended (c : VaultCtx) (fs : FS) (u token : String) :
    saveTokenF c "" fs u token = fs ∧
    loadTokenF c "" fs u = (none, fs) ∧
    deleteTokenF fs u (tokenPath u) = none := by
  refine ⟨?_, ?_, deleteTokenF_at_path fs u⟩
  · simp [saveTokenF]
  · simp [loadTokenF]

/-! ## Embedding of the reconnect scheduler of src/steamFunctions.ts -/

/-- Mutable module state of src/steamFunctions.ts: the token file store, the
activeClients registry (handle presence), the accountsToReconnect map, the
reconnectTimers map (key presence) and, to make timer duplication observable,
the number of armed single-shot timers per account. -/
structure SteamState where
  files : FS
  activeClients : String → Bool
  accountsToReconnect : String → Option Account
  reconnectTimers : String → Bool
  armedTimers : String → Nat

/-- JavaScript truthiness of account.sharedSecret: present and non-empty. -/
def sharedSecretTruthy (acc : Account) : Bool :=
  match acc.sharedSecret with
  | some s => decide (s ≠ "")
  | Option.none => false

/-- The test account.guardType === none of src/steamFunctions.ts. -/
def guardNone (acc : Account) : Bool := decide (acc.guardType = some GuardType.none)

/-- Embedding of scheduleReconnect of src/steamFunctions.ts: no-op when a
reconnect timer already exists for this username; otherwise checks
eligibility (has a saved token, or a truthy sharedSecret, or guardType none —
note that hasToken may itself delete a corrupted record) and, when eligible,
records the account in accountsToReconnect and arms one timer. -/
def scheduleReconnect (c : VaultCtx) (key : String) (st : SteamState)
    (acc : Account) : SteamState :=
  if st.reconnectTimers acc.username then st
  else
    let r := hasTokenF c key st.files acc.username
    if r.1 || sharedSecretTruthy acc || guardNone acc then
      { st with
        files := r.2,
        accountsToReconnect := fun u =>
          if u = acc.username then some acc else st.accountsToReconnect u,
        reconnectTimers := fun u =>
          if u = acc.username then true else st.reconnectTimers u,
        armedTimers := fun u =>
          if u = acc.username then st.armedTimers u + 1 else st.armedTimers u }
    else { st with files := r.2 }

/-- Claim C3: for an account with no pending reconnect and no armed timer,
an eligible scheduleReconnect call records exactly one pending reconnect and
arms exactly one timer, and a second call before the timer fires changes no
state at all. -/
theorem scheduleReconnect_idempotent (c : VaultCtx) (key : String)
    (st : SteamState) (acc : Account)
    (hnt : st.reconnectTimers acc.username = false)
    (hna : st.armedTimers acc.username = 0)
    (helig : ((hasTokenF c key st.files acc.username).1 ||
      sharedSecretTruthy acc || guardNone acc) = true) :
    (scheduleReconnect c key st acc).reconnectTimers acc.username = true ∧
    (scheduleReconnect c key st acc).armedTimers acc.username = 1 ∧
    (scheduleReconnect c key st acc).accountsToReconnect acc.username = some acc ∧
    scheduleReconnect c key (scheduleReconnect c key st acc) acc
      = scheduleReconnect c key st acc := by
  have ht : (scheduleReconnect c key st acc).reconnectTimers acc.username = true := by
    simp [scheduleReconnect, hnt, helig]
  refine ⟨ht, ?_, ?_, ?_⟩
  · simp [scheduleReconnect, hnt, helig, hna]
  · simp [scheduleReconnect, hnt, helig]
  · rw [scheduleReconnect, ht]
    simp

/-- Account bob: no stored secret, verification mode none, hence eligible for
unattended reconnection even without a saved token. -/
def accBob : Account :=
  { username := "bob", password := "pw", sharedSecret := none,
    guardType := some GuardType.none, games := [], status := PersonaStatus.Online,
    ownerId := 1 }

/-- Initial empty module state. -/
def st0 : SteamState :=
  { files := fun _ => none, activeClients := fun _ => false,
    accountsToReconnect := fun _ => none, reconnectTimers := fun _ => false,
    armedTimers := fun _ => 0 }

theorem scheduleReconnect_idempotent_witness :
    (scheduleReconnect ctxBadDec "key1" st0 accBob).reconnectTimers "bob" = true ∧
    (scheduleReconnect ctxBadDec "key1" st0 accBob).armedTimers "bob" = 1 ∧
    (scheduleReconnect ctxBadDec "key1" st0 accBob).accountsToReconnect "bob"
      = some accBob ∧
    scheduleReconnect ctxBadDec "key1" (scheduleReconnect ctxBadDec "key1" st0 accBob)
      accBob = scheduleReconnect ctxBadDec "key1" st0 accBob :=
  scheduleReconnect_idempotent ctxBadDec "key1" st0 accBob rfl rfl (by decide)

/-- Claim C4: for an account with no pending reconnect, scheduleReconnect
arms a timer and records a pending reconnect if and only if the account has a
saved token (per hasToken), or a non-empty sharedSecret, or guardType none;
an ineligible account gets no timer and no pending-reconnect record. -/
theorem scheduleReconnect_eligibility (c : VaultCtx) (key : String)
    (st : SteamState) (acc : Account)
    (hnt : st.reconnectTimers acc.username = false)
    (hna : st.armedTimers acc.username = 0)
    (hnr : st.accountsToReconnect acc.username = none) :
    ((scheduleReconnect c key st acc).reconnectTimers acc.username
      = ((hasTokenF c key st.files acc.username).1 ||
          sharedSecretTruthy acc || guardNone acc)) ∧
    ((scheduleReconnect c key st acc).accountsToReconnect acc.username
      = if ((hasTokenF c key st.files acc.username).1 ||
            sharedSecretTruthy acc || guardNone acc) then some acc else none) ∧
    ((scheduleReconnect c key st acc).armedTimers acc.username
      = if ((hasTokenF c key st.files acc.username).1 ||
            sharedSecretTruthy acc || guardNone acc) then 1 else 0) := by
  cases helig : ((hasTokenF c key st.files acc.username).1 ||
      sharedSecretTruthy acc || guardNone acc) with
  | false => simp [scheduleReconnect, hnt, hna, hnr, helig]
  | true => simp [scheduleReconnect, hnt, hna, hnr, helig]

/-- Account dave: no token possible (empty store in the witness), no shared
secret, verification mode mobile — ineligible for unattended reconnection. -/
def accDave : Account :=
  { username := "dave", password := "pw", sharedSecret := none,
    guardType := some GuardType.mobile, games := [], status := PersonaStatus.Online,
    ownerId := 2 }

theorem scheduleReconnect_eligibility_witness :
    ((scheduleReconnect ctxBadDec "key1" st0 accDave).reconnectTimers "dave"
      = ((hasTokenF ctxBadDec "key1" st0.files "dave").1 ||
          sharedSecretTruthy accDave || guardNone accDave)) ∧
    ((scheduleReconnect ctxBadDec "key1" st0 accDave).accountsToReconnect "dave"
      = if ((hasTokenF ctxBadDec "key1" st0.files "dave").1 ||
            sharedSecretTruthy accDave || guardNone accDave)
        then some accDave else none) ∧
    ((scheduleReconnect ctxBadDec "key1" st0 accDave).armedTimers "dave"
      = if ((hasTokenF ctxBadDec "key1" st0.files "dave").1 ||
            sharedSecretTruthy accDave || guardNone accDave) then 1 else 0) :=
  scheduleReconnect_eligibility ctxBadDec "key1" st0 accDave rfl rfl rfl

/-! ## Embedding of the login option builder of src/steamFunctions.ts -/

/-- The logOnOptions object built by login in src/steamFunctions.ts. Absent
object fields are none. -/
structure LogOnOptions where
  rememberPassword : Bool
  machineName : String
  refreshToken : Option String
  accountName : Option String
  password : Option String
  twoFactorCode : Option String
deriving DecidableEq

/-- Embedding of the option-building section of login in
src/steamFunctions.ts: with a saved token, only refreshToken is set; without
one, accountName and password are set and a totp code is attached when
account.sharedSecret is truthy. -/
def buildLogOnOptions (c : VaultCtx) (acc : Account) (savedToken : Option String) :
    LogOnOptions :=
  match savedToken with
  | some t =>
    { rememberPassword := true, machineName := "t.me/sensejke",
      refreshToken := some t, accountName := none, password := none,
      twoFactorCode := none }
  | Option.none =>
    { rememberPassword := true, machineName := "t.me/sensejke",
      refreshToken := none, accountName := some acc.username,
      password := some acc.password,
      twoFactorCode :=
        match acc.sharedSecret with
        | some s => if s = "" then none else some (c.totp s)
        | Option.none => none }

/-- The login entry point up to the logOn call: loadToken (which may delete a
corrupted record) followed by option building. -/
def loginOptions (c : VaultCtx) (key : String) (st : SteamState) (acc : Account) :
    LogOnOptions × SteamState :=
  let r := loadTokenF c key st.files acc.username
  (buildLogOnOptions c acc r.1, { st with files := r.2 })

/-- Claim C5: the options passed to logOn come from exactly one credential
path: with a saved token, the options carry the refresh token and omit
account name, password and two-factor code; without one, they carry account
name and password, and a time-based one-time code exactly when the account
has a (truthy) sharedSecret. -/
theorem login_credential_path (c : VaultCtx) (key : String) (st : SteamState)
    (acc : Account) :
    (∀ t, (loadTokenF c key st.files acc.username).1 = some t →
      (loginOptions c key st acc).1.refreshToken = some t ∧
      (loginOptions c key st acc).1.accountName = none ∧
      (loginOptions c key st acc).1.password = none ∧
      (loginOptions c key st acc).1.twoFactorCode = none) ∧
    ((loadTokenF c key st.files acc.username).1 = none →
      (loginOptions c key st acc).1.refreshToken = none ∧
      (loginOptions c key st acc).1.accountName = some acc.username ∧
      (loginOptions c key st acc).1.password = some acc.password ∧
      ((loginOptions c key st acc).1.twoFactorCode).isSome = sharedSecretTruthy acc) := by
  constructor
  · intro t ht
    simp [loginOptions, buildLogOnOptions, ht]
  · intro ht
    rcases hs : acc.sharedSecret with _ | s
    · simp [loginOptions, buildLogOnOptions, ht, sharedSecretTruthy, hs]
    · by_cases he : s = "" <;>
        simp [loginOptions, buildLogOnOptions, ht, sharedSecretTruthy, hs, he]

/-- A context in which decryption and token parsing both succeed, the parsed
record echoing the stored text as refreshToken. -/
def ctxGood : VaultCtx where
  enc := fun t _ => t
  dec := fun e _ => some e
  stringifyTok := fun t => t
  parseTok := fun s => some { refreshToken := some s }
  parseAccounts := fun _ => none
  totp := fun s => s
  lookup := fun _ => none

/-- Account alice, witness account with a saved token. -/
def accAlice : Account :=
  { username := "alice", password := "pw", sharedSecret := none,
    guardType := none, games := [], status := PersonaStatus.Online, ownerId := 3 }

/-- State holding a decryptable token record for alice. -/
def stAlice : SteamState :=
  { st0 with files := fun p => if p = tokenPath "alice" then some "tok123" else none }

theorem login_credential_path_witness :
    (loginOptions ctxGood "key1" stAlice accAlice).1.refreshToken = some "tok123" ∧
    (loginOptions ctxGood "key1" stAlice accAlice).1.accountName = none ∧
    (loginOptions ctxGood "key1" stAlice accAlice).1.password = none ∧
    (loginOptions ctxGood "key1" stAlice accAlice).1.twoFactorCode = none :=
  (login_credential_path ctxGood "key1" stAlice accAlice).1 "tok123" (by decide)

/-! ## Embedding of the login error handler of src/steamFunctions.ts -/

/-- Boolean test that pat occurs as a contiguous run at the head of l. -/
def listPre : List Char → List Char → Bool
  | [], _ => true
  | _ :: _, [] => false
  | a :: as, b :: bs => a == b && listPre as bs

/-- Boolean test that pat occurs as a contiguous run anywhere inside l,
modelling String.prototype.includes. -/
def listSub : List Char → List Char → Bool
  | pat, [] => pat.isEmpty
  | pat, b :: bs => listPre pat (b :: bs) || listSub pat bs

/-- Embedding of error.message.includes(pat). -/
def containsSub (s pat : String) : Bool := listSub pat.data s.data

/-- The credential-invalid classification of the error handler in login. -/
def credErr (msg : String) : Bool :=
  containsSub msg "InvalidPassword" || containsSub msg "AccessDenied" ||
    containsSub msg "Expired"

/-- The transient classification of the error handler in login. -/
def transientErr (msg : String) : Bool :=
  containsSub msg "LoggedInElsewhere" || containsSub msg "LogonSessionReplaced" ||
    containsSub msg "RateLimitExceeded"

/-- The promise value login resolves with. -/
structure LoginResult where
  success : Bool
  error : Option String
deriving DecidableEq

/-- Embedding of the steamUser error event handler inside login of
src/steamFunctions.ts: remove the account from activeClients, delete the
stored token on a credential-invalid message, invoke scheduleReconnect on a
transient message, and resolve with failure carrying the message. -/
def onLoginError (c : VaultCtx) (key : String) (st : SteamState) (acc : Account)
    (msg : String) : SteamState × LoginResult :=
  let st1 := { st with activeClients := fun u =>
    if u = acc.username then false else st.activeClients u }
  let st2 := if credErr msg then
    { st1 with files := deleteTokenF st1.files acc.username } else st1
  let st3 := if transientErr msg then scheduleReconnect c key st2 acc else st2
  (st3, { success := false, error := some msg })

lemma loadTokenF_of_missing (c : VaultCtx) (key : String) (fs : FS) (u : String)
    (h : fs (tokenPath u) = none) : loadTokenF c key fs u = (none, fs) := by
  unfold loadTokenF
  by_cases hk : key = "" <;> simp [hk, h]

lemma scheduleReconnect_activeClients (c : VaultCtx) (key : String)
    (st : SteamState) (acc : Account) :
    (scheduleReconnect c key st acc).activeClients = st.activeClients := by
  unfold scheduleReconnect
  by_cases h : st.reconnectTimers acc.username = true
  · simp [h]
  · simp only [h, if_false]
    by_cases he : ((hasTokenF c key st.files acc.username).1 ||
        sharedSecretTruthy acc || guardNone acc) = true
    · rw [if_pos he]
      simp
    · rw [if_neg he]
      simp

lemma scheduleReconnect_files_of_missing (c : VaultCtx) (key : String)
    (st : SteamState) (acc : Account)
    (h : st.files (tokenPath acc.username) = none) :
    (scheduleReconnect c key st acc).files = st.files := by
  unfold scheduleReconnect
  by_cases ht : st.reconnectTimers acc.username = true
  · simp [ht]
  · have hr : hasTokenF c key st.files acc.username = (false, st.files) := by
      simp [hasTokenF, loadTokenF_of_missing c key st.files acc.username h]
    simp only [ht, if_false, hr]
    by_cases he : ((false : Bool) || sharedSecretTruthy acc || guardNone acc) = true
    · rw [if_pos he]
      simp
    · rw [if_neg he]
      simp

lemma onLoginError_activeClients (c : VaultCtx) (key : String) (st : SteamState)
    (acc : Account) (msg : String) :
    (onLoginError c key st acc msg).1.activeClients acc.username = false := by
  by_cases hcr : credErr msg = true <;> by_cases htr : transientErr msg = true <;>
    simp [onLoginError, hcr, htr, scheduleReconnect_activeClients]

lemma onLoginError_files_cred (c : VaultCtx) (key : String) (st : SteamState)
    (acc : Account) (msg : String) (hcr : credErr msg = true) :
    (onLoginError c key st acc msg).1.files (tokenPath acc.username) = none := by
  simp only [onLoginError, hcr, if_true]
  by_cases htr : transientErr msg = true
  · rw [if_pos htr, scheduleReconnect_files_of_missing]
    · exact deleteTokenF_at_path _ _
    · exact deleteTokenF_at_path _ _
  · rw [if_neg htr]
    exact deleteTokenF_at_path _ _

lemma onLoginError_state_pure (c : VaultCtx) (key : String) (st : SteamState)
    (acc : Account) (msg : String)
    (hcr : credErr msg = false) (htr : transientErr msg = false) :
    (onLoginError c key st acc msg).1 =
      { st with activeClients := fun u =>
          if u = acc.username then false else st.activeClients u } := by
  simp [onLoginError, hcr, htr]

lemma onLoginError_sched_frame (c : VaultCtx) (key : String) (st : SteamState)
    (acc : Account) (msg : String) (htr : transientErr msg = false) :
    (onLoginError c key st acc msg).1.reconnectTimers = st.reconnectTimers ∧
    (onLoginError c key st acc msg).1.armedTimers = st.armedTimers ∧
    (onLoginError c key st acc msg).1.accountsToReconnect = st.accountsToReconnect := by
  by_cases hcr : credErr msg = true <;> simp [onLoginError, htr, hcr]

lemma onLoginError_sched_arm (c : VaultCtx) (key : String) (st : SteamState)
    (acc : Account) (msg : String)
    (htr : transientErr msg = true) (hcr : credErr msg = false)
    (hnt : st.reconnectTimers acc.username = false)
    (hna : st.armedTimers acc.username = 0)
    (hnr : st.accountsToReconnect acc.username = none) :
    ((onLoginError c key st acc msg).1.reconnectTimers acc.username
      = ((hasTokenF c key st.files acc.username).1 ||
          sharedSecretTruthy acc || guardNone acc)) ∧
    ((onLoginError c key st acc msg).1.accountsToReconnect acc.username
      = if ((hasTokenF c key st.files acc.username).1 ||
            sharedSecretTruthy acc || guardNone acc) then some acc else none) ∧
    ((onLoginError c key st acc msg).1.armedTimers acc.username
      = if ((hasTokenF c key st.files acc.username).1 ||
            sharedSecretTruthy acc || guardNone acc) then 1 else 0) := by
  cases helig : ((hasTokenF c key st.files acc.username).1 ||
      sharedSecretTruthy acc || guardNone acc) <;>
    simp [onLoginError, hcr, htr, scheduleReconnect, hnt, hna, hnr, helig]

/-- State holding one corrupted token record for bob, otherwise empty. -/
def stC6 : SteamState :=
  { st0 with files := fun p => if p = tokenPath "bob" then some "garbage" else none }

/-- Claim C6 counterexample: on the error message RateLimitExceeded, which is
transient and not credential-invalid, the handler still ends with the stored
token record removed, because scheduleReconnect runs the hasToken eligibility
check and loadToken deletes the record when it fails to decrypt. So the
stored token can be deleted on an error that does not indicate an invalid or
expired credential, refuting the only-if direction of the claim. -/
theorem onLoginError_transient_deletes_counterexample :
    credErr "RateLimitExceeded" = false ∧
    transientErr "RateLimitExceeded" = true ∧
    stC6.files (tokenPath "bob") = some "garbage" ∧
    (onLoginError ctxBadDec "key1" stC6 accBob "RateLimitExceeded").1.files
      (tokenPath "bob") = none := by
  refine ⟨by decide, by decide, by decide, by decide⟩

/-- Claim C6 amended: on an error event, the handle is removed from the
registry and login resolves with success false carrying the message; the
handler deletes the persisted token when the message indicates an invalid or
expired credential; when it indicates neither a credential error nor a
transient condition, the only state change is the registry removal (in
particular the token survives); the reconnect scheduler is invoked exactly on
transient messages, arming one timer and recording the pending reconnect
exactly when the account is eligible and none is pending — and during that
eligibility check a corrupted stored record may itself be deleted even though
the error was not a credential error. -/
theorem onLoginError_amended (c : VaultCtx) (key : String) (st : SteamState)
    (acc : Account) (msg : String)
    (hnt : st.reconnectTimers acc.username = false)
    (hna : st.armedTimers acc.username = 0)
    (hnr : st.accountsToReconnect acc.username = none) :
    (onLoginError c key st acc msg).2 = { success := false, error := some msg } ∧
    (onLoginError c key st acc msg).1.activeClients acc.username = false ∧
    (credErr msg = true →
      (onLoginError c key st acc msg).1.files (tokenPath acc.username) = none) ∧
    (credErr msg = false → transientErr msg = false →
      (onLoginError c key st acc msg).1 =
        { st with activeClients := fun u =>
            if u = acc.username then false else st.activeClients u }) ∧
    (transientErr msg = false →
      (onLoginError c key st acc msg).1.reconnectTimers = st.reconnectTimers ∧
      (onLoginError c key st acc msg).1.armedTimers = st.armedTimers ∧
      (onLoginError c key st acc msg).1.accountsToReconnect
        = st.accountsToReconnect) ∧
    (transientErr msg = true → credErr msg = false →
      ((onLoginError c key st acc msg).1.reconnectTimers acc.username
        = ((hasTokenF c key st.files acc.username).1 ||
            sharedSecretTruthy acc || guardNone acc)) ∧
      ((onLoginError c key st acc msg).1.accountsToReconnect acc.username
        = if ((hasTokenF c key st.files acc.username).1 ||
              sharedSecretTruthy acc || guardNone acc) then some acc else none) ∧
      ((onLoginError c key st acc msg).1.armedTimers acc.username
        = if ((hasTokenF c key st.files acc.username).1 ||
              sharedSecretTruthy acc || guardNone acc) then 1 else 0)) :=
  ⟨rfl, onLoginError_activeClients c key st acc msg,
    fun hcr => onLoginError_files_cred c key st acc msg hcr,
    fun hcr htr => onLoginError_state_pure c key st acc msg hcr htr,
    fun htr => onLoginError_sched_frame c key st acc msg htr,
    fun htr hcr => onLoginError_sched_arm c key st acc msg htr hcr hnt hna hnr⟩

theorem onLoginError_amended_witness :
    (onLoginError ctxBadDec "key1" st0 accBob "LoggedInElsewhere").2
      = { success := false, error := some "LoggedInElsewhere" } ∧
    (onLoginError ctxBadDec "key1" st0 accBob "LoggedInElsewhere").1.activeClients
      "bob" = false ∧
    (credErr "LoggedInElsewhere" = true →
      (onLoginError ctxBadDec "key1" st0 accBob "LoggedInElsewhere").1.files
        (tokenPath "bob") = none) ∧
    (credErr "LoggedInElsewhere" = false → transientErr "LoggedInElsewhere" = false →
      (onLoginError ctxBadDec "key1" st0 accBob "LoggedInElsewhere").1 =
        { st0 with activeClients := fun u =>
            if u = "bob" then false else st0.activeClients u }) ∧
    (transientErr "LoggedInElsewhere" = false →
      (onLoginError ctxBadDec "key1" st0 accBob "LoggedInElsewhere").1.reconnectTimers
        = st0.reconnectTimers ∧
      (onLoginError ctxBadDec "key1" st0 accBob "LoggedInElsewhere").1.armedTimers
        = st0.armedTimers ∧
      (onLoginError ctxBadDec "key1" st0 accBob "LoggedInElsewhere").1.accountsToReconnect
        = st0.accountsToReconnect) ∧
    (transientErr "LoggedInElsewhere" = true → credErr "LoggedInElsewhere" = false →
      ((onLoginError ctxBadDec "key1" st0 accBob "LoggedInElsewhere").1.reconnectTimers
          "bob"
        = ((hasTokenF ctxBadDec "key1" st0.files "bob").1 ||
            sharedSecretTruthy accBob || guardNone accBob)) ∧
      ((onLoginError ctxBadDec "key1" st0 accBob "LoggedInElsewhere").1.accountsToReconnect
          "bob"
        = if ((hasTokenF ctxBadDec "key1" st0.files "bob").1 ||
              sharedSecretTruthy accBob || guardNone accBob)
          then some accBob else none) ∧
      ((onLoginError ctxBadDec "key1" st0 accBob "LoggedInElsewhere").1.armedTimers
          "bob"
        = if ((hasTokenF ctxBadDec "key1" st0.files "bob").1 ||
              sharedSecretTruthy accBob || guardNone accBob) then 1 else 0)) :=
  onLoginError_amended ctxBadDec "key1" st0 accBob "LoggedInElsewhere" rfl rfl rfl

/-! ## Embedding of the activity selection of src/steamFunctions.ts -/

/-- Embedding of getGameName of src/steamFunctions.ts: the external metadata
lookup, yielding Unknown on any failure. -/
def getGameName (c : VaultCtx) (appId : Nat) : String := (c.lookup appId).getD "Unknown"

/-- One entry of the list handed to gamesPlayed: either the synthetic
non-Steam custom entry or a plain AppID. -/
inductive GameEntry where
  | custom (gameId : String) (extraInfo : String)
  | app (appId : Nat)
deriving DecidableEq

/-- The fixed synthetic game_id used for the custom entry in
src/steamFunctions.ts. -/
def NONSTEAM_GAME_ID : String := "15190414816125648896"

/-- Embedding of account.games.find of playGames: the first string-typed
selector. -/
def findCustomGame (games : List GameSel) : Option String :=
  games.findSome? fun g =>
    match g with
    | GameSel.str s => some s
    | GameSel.num _ => none

/-- Embedding of account.games.filter of playGames: all numeric selectors. -/
def filterAppIds (games : List GameSel) : List Nat :=
  games.filterMap fun g =>
    match g with
    | GameSel.num n => some n
    | GameSel.str _ => none

/-- Embedding of the gamesToPlay construction shared by playGames and
updateGames of src/steamFunctions.ts. The first component is the list handed
to gamesPlayed; the second is the log of names fetched by getGameName, which
is observability only. -/
def buildGamesToPlay (c : VaultCtx) (games : List GameSel) :
    List GameEntry × List String :=
  let base := match findCustomGame games with
    | some s => [GameEntry.custom NONSTEAM_GAME_ID s]
    | Option.none => []
  (base ++ (filterAppIds games).map GameEntry.app,
   (filterAppIds games).map (getGameName c))

/-- Embedding of playGames of src/steamFunctions.ts (the submitted list). -/
def playGames (c : VaultCtx) (acc : Account) : List GameEntry :=
  (buildGamesToPlay c acc.games).1

/-- Embedding of updateGames of src/steamFunctions.ts: none when the account
has no live client (the function returns false without submitting). -/
def updateGames (c : VaultCtx) (st : SteamState) (username : String)
    (games : List GameSel) : Option (List GameEntry) :=
  if st.activeClients username then some (buildGamesToPlay c games).1 else none

/-- Test for the synthetic custom entry. -/
def isCustomEntry : GameEntry → Bool
  | GameEntry.custom _ _ => true
  | GameEntry.app _ => false

lemma filterAppIds_cons_num (m : Nat) (gs : List GameSel) :
    filterAppIds (GameSel.num m :: gs) = m :: filterAppIds gs := by
  simp [filterAppIds, List.filterMap_cons]

lemma filterAppIds_cons_str (s : String) (gs : List GameSel) :
    filterAppIds (GameSel.str s :: gs) = filterAppIds gs := by
  simp [filterAppIds, List.filterMap_cons]

lemma count_filterAppIds (games : List GameSel) (n : Nat) :
    (filterAppIds games).count n = games.count (GameSel.num n) := by
  induction games with
  | nil => simp [filterAppIds]
  | cons g gs ih =>
    cases g with
    | num m =>
      rw [filterAppIds_cons_num]
      simp [List.count_cons, ih]
    | str s =>
      rw [filterAppIds_cons_str]
      simp [List.count_cons, ih]

lemma count_map_app (l : List Nat) (n : Nat) :
    (l.map GameEntry.app).count (GameEntry.app n) = l.count n := by
  induction l with
  | nil => simp
  | cons m ms ih => simp [List.count_cons, ih]

lemma countP_custom_map_app (l : List Nat) :
    (l.map GameEntry.app).countP (fun e => isCustomEntry e) = 0 := by
  induction l with
  | nil => simp
  | cons m ms ih => simp [List.countP_cons, isCustomEntry, ih]

/-- Claim C8: the list passed to gamesPlayed contains the first string-typed
selector (if any) as the single synthetic non-numeric entry, all other string
selectors being dropped, together with every numeric selector (with
multiplicity); it does not depend on the outcome of the metadata lookup, so a
failed name lookup never prevents submission; updateGames submits the same
list when the account is online, and playGames submits it for the account's
own selector list. -/
theorem games_selection_spec (c c2 : VaultCtx) (games : List GameSel) :
    (∀ s, GameEntry.custom NONSTEAM_GAME_ID s ∈ (buildGamesToPlay c games).1 ↔
      findCustomGame games = some s) ∧
    (((buildGamesToPlay c games).1).countP (fun e => isCustomEntry e)
      = if (findCustomGame games).isSome then 1 else 0) ∧
    (∀ n, ((buildGamesToPlay c games).1).count (GameEntry.app n)
      = games.count (GameSel.num n)) ∧
    ((buildGamesToPlay c2 games).1 = (buildGamesToPlay c games).1) ∧
    (∀ st u, st.activeClients u = true →
      updateGames c st u games = some ((buildGamesToPlay c games).1)) ∧
    (∀ acc : Account, acc.games = games →
      playGames c acc = (buildGamesToPlay c games).1) := by
  refine ⟨?_, ?_, ?_, ?_, ?_, ?_⟩
  · intro s
    cases hfc : findCustomGame games with
    | none => simp [buildGamesToPlay, hfc]
    | some s0 => simp [buildGamesToPlay, hfc, eq_comm]
  · cases hfc : findCustomGame games with
    | none => simp [buildGamesToPlay, hfc, countP_custom_map_app, isCustomEntry]
    | some s0 =>
      simp [buildGamesToPlay, hfc, List.countP_append, countP_custom_map_app,
        List.countP_cons, isCustomEntry]
  · intro n
    cases hfc : findCustomGame games with
    | none => simp [buildGamesToPlay, hfc, count_map_app, count_filterAppIds]
    | some s0 =>
      simp [buildGamesToPlay, hfc, List.count_cons, count_map_app,
        count_filterAppIds]
  · simp [buildGamesToPlay]
  · intro st u hu
    simp [updateGames, hu]
  · intro acc hg
    rw [playGames, hg]

/-- State in which every account has a live client. -/
def stOn : SteamState := { st0 with activeClients := fun _ => true }

theorem games_selection_spec_witness :
    updateGames ctxGood stOn "u8" [GameSel.str "x", GameSel.num 10, GameSel.str "y"]
      = some ((buildGamesToPlay ctxGood
          [GameSel.str "x", GameSel.num 10, GameSel.str "y"]).1) :=
  (games_selection_spec ctxGood ctxBadDec
    [GameSel.str "x", GameSel.num 10, GameSel.str "y"]).2.2.2.2.1 stOn "u8" rfl

/-! ## Embedding of cleanCache of src/steamFunctions.ts -/

/-- Directory entry as seen by cleanCache: name, modification time in
milliseconds, and whether it is a directory. -/
structure FileInfo where
  name : String
  mtimeMs : Nat
  isDir : Bool
deriving DecidableEq

/-- Boolean test that s ends with suff, modelling String.prototype.endsWith. -/
def strEndsWith (s suff : String) : Bool := listPre suff.data.reverse s.data.reverse

/-- The isCacheFile test of cleanCache: name contains sentry or machine, or
ends with .bin. -/
def isSteamCacheFile (f : FileInfo) : Bool :=
  containsSub f.name "sentry" || containsSub f.name "machine" ||
    strEndsWith f.name ".bin"

/-- The isOld test of cleanCache: older than the seven-day retention window
at the given current time (milliseconds). -/
def isOldFile (now : Nat) (f : FileInfo) : Bool :=
  decide (7 * 24 * 60 * 60 * 1000 < now - f.mtimeMs)

/-- Per-file decision of cleanCache of src/steamFunctions.ts: files whose
name ends with .token are skipped before any other test; every other file is
removed when it is a client-library cache artifact or old. -/
def cleanCacheKeep (now : Nat) (f : FileInfo) : Bool :=
  if strEndsWith f.name ".token" then true
  else !(isSteamCacheFile f || isOldFile now f)

/-- Embedding of cleanCache of src/steamFunctions.ts: the surviving entries
of the token directory. -/
def cleanCache (now : Nat) (files : List FileInfo) : List FileInfo :=
  files.filter (cleanCacheKeep now)

/-- Claim C9: the periodic cache sweep never deletes a file whose name ends
with .token, regardless of its age, directory flag, or any other property, so
it never removes a valid encrypted token record. -/
theorem cleanCache_never_deletes_token (now : Nat) (files : List FileInfo)
    (f : FileInfo) (hmem : f ∈ files)
    (hname : strEndsWith f.name ".token" = true) :
    f ∈ cleanCache now files :=
  List.mem_filter.2 ⟨hmem, by simp [cleanCacheKeep, hname]⟩

theorem cleanCache_never_deletes_token_witness :
    (⟨"old.token", 0, false⟩ : FileInfo) ∈
      cleanCache 10000000000000
        [⟨"old.token", 0, false⟩, ⟨"ssfn-sentry", 0, false⟩] :=
  cleanCache_never_deletes_token 10000000000000
    [⟨"old.token", 0, false⟩, ⟨"ssfn-sentry", 0, false⟩]
    ⟨"old.token", 0, false⟩ (by decide) (by decide)

/-! ## Embedding of SecureStorage.loadAccounts of src/storage.ts -/

/-- Constant DATA_FILE of src/storage.ts. -/
def DATA_FILE : String := "data/accounts.enc"

/-- Embedding of SecureStorage.loadAccounts of src/storage.ts: empty list
when the data file is missing; empty list when decryption or JSON parsing
throws, with the file left untouched (no unlink in the catch branch, unlike
loadToken); the parsed account list otherwise. The second component is the
file store after the call. -/
def SecureStorage.loadAccounts (c : VaultCtx) (encryptionKey : String) (fs : FS) :
    List Account × FS :=
  match fs DATA_FILE with
  | Option.none => ([], fs)
  | some encrypted =>
    match c.dec encrypted encryptionKey with
    | Option.none => ([], fs)
    | some decrypted =>
      match c.parseAccounts decrypted with
      | Option.none => ([], fs)
      | some accounts => (accounts, fs)

/-- Claim C10: SecureStorage.loadAccounts never throws (the embedding is
total and covers every case): a missing data file yields the empty list, and
a decryption or parse failure also yields the empty list; in every case the
stored file is left unchanged — the corrupted record is not deleted, unlike
the per-account token vault. -/
theorem loadAccounts_fail_safe (c : VaultCtx) (key : String) (fs : FS) :
    ((SecureStorage.loadAccounts c key fs).2 = fs) ∧
    (fs DATA_FILE = none → (SecureStorage.loadAccounts c key fs).1 = []) ∧
    (∀ e, fs DATA_FILE = some e → c.dec e key = none →
      (SecureStorage.loadAccounts c key fs).1 = []) ∧
    (∀ e d, fs DATA_FILE = some e → c.dec e key = some d →
      c.parseAccounts d = none → (SecureStorage.loadAccounts c key fs).1 = []) ∧
    (∀ e d l, fs DATA_FILE = some e → c.dec e key = some d →
      c.parseAccounts d = some l → (SecureStorage.loadAccounts c key fs).1 = l) := by
  refine ⟨?_, ?_, ?_, ?_, ?_⟩
  · cases hf : fs DATA_FILE with
    | none => simp [SecureStorage.loadAccounts, hf]
    | some e =>
      cases hd : c.dec e key with
      | none => simp [SecureStorage.loadAccounts, hf, hd]
      | some d =>
        cases hp : c.parseAccounts d with
        | none => simp [SecureStorage.loadAccounts, hf, hd, hp]
        | some l => simp [SecureStorage.loadAccounts, hf, hd, hp]
  · intro hf
    simp [SecureStorage.loadAccounts, hf]
  · intro e hf hd
    simp [SecureStorage.loadAccounts, hf, hd]
  · intro e d hf hd hp
    simp [SecureStorage.loadAccounts, hf, hd, hp]
  · intro e d l hf hd hp
    simp [SecureStorage.loadAccounts, hf, hd, hp]

/-- File store holding a (corrupted) account-collection record. -/
def fsAcc : FS := fun p => if p = DATA_FILE then some "opaque-blob" else none

theorem loadAccounts_fail_safe_witness :
    (SecureStorage.loadAccounts ctxBadDec "key1" fsAcc).2 = fsAcc ∧
    (SecureStorage.loadAccounts ctxBadDec "key1" fsAcc).1 = [] :=
  ⟨(loadAccounts_fail_safe ctxBadDec "key1" fsAcc).1,
    (loadAccounts_fail_safe ctxBadDec "key1" fsAcc).2.2.1 "opaque-blob"
      (by decide) rfl⟩
